import Mathlib

/-!
# Verification of the btap_weather EPW ingestion pipeline and wy3 transcoder

Shallow embedding of `src/utilities/create_database.py` and
`src/utilities/generate_epw_from_wy3.py`.

Modelling conventions:
* Python `float` values are modelled by `PyFloat`: exact rationals plus the
  special values `inf`, `-inf` and `nan`.  String-to-float conversion
  (`float(s)`) is modelled by `pyFloatOfString`, covering sign, decimal
  mantissa, exponent, and the `inf`/`infinity`/`nan` literals (case
  insensitive).  Not modelled: PEP-515 underscores in numeric literals and
  overflow of very large finite decimal literals to `inf`; neither occurs
  in any concrete input used below.
* Fallible Python code (statements that can raise) is modelled with
  `Except String`; the string is a description of the exception.
* `sqlite` tables are modelled by lists of rows inside a `Store` record;
  each committed insert appends rows.  An exception raised after a commit
  leaves the committed rows in place, which the orchestrator embedding
  (`processEpw`) reflects by carrying the partially-updated store in its
  error value.
-/

set_option allowUnsafeReducibility true in
attribute [semireducible] Rat.add Rat.mul Rat.inv Rat.div Rat.sub Rat.neg Rat.ofScientific

deriving instance DecidableEq for Except

/-- A Python `float` value: a finite value (kept exact as a rational),
positive/negative infinity, or NaN. -/
inductive PyFloat where
  | finite (q : ℚ)
  | inf
  | negInf
  | nan
deriving DecidableEq, Repr

namespace PyFloat

/-- Is this value NaN? -/
def isNan : PyFloat → Bool
  | .nan => true
  | _ => false

end PyFloat

/-- Python's `str.strip()` character class, as used on ASCII weather data
(space, tab, CR, LF; the rarer `\v`/`\f` whitespace is not modelled). -/
def pyIsSpace (c : Char) : Bool := c.isWhitespace

/-- Python `str.strip()` on a list of characters. -/
def pyStripL (l : List Char) : List Char :=
  ((l.dropWhile pyIsSpace).reverse.dropWhile pyIsSpace).reverse

/-- Python `str.strip()`. -/
def pyStripS (s : String) : String := ⟨pyStripL s.data⟩

/-- Python `str.split(sep)` for a one-character separator: splits on every
occurrence of the separator, keeping empty pieces (`"".split(',') == ['']`). -/
def pySplitL (sep : Char) : List Char → List (List Char)
  | [] => [[]]
  | c :: cs =>
    if c = sep then [] :: pySplitL sep cs
    else
      match pySplitL sep cs with
      | [] => [[c]]
      | p :: ps => (c :: p) :: ps

/-- Python `str.split(sep)` on `String`. -/
def pySplit (s : String) (sep : Char) : List String :=
  (pySplitL sep s.data).map (fun l => ⟨l⟩)

/-- Does `s` start with `pre`?  (Python `str.startswith`, re-implemented on
character lists so that it reduces definitionally.) -/
def strStartsWith (s pre : String) : Bool :=
  go pre.data s.data
where
  /-- List-level recursion for `strStartsWith`. -/
  go : List Char → List Char → Bool
    | [], _ => true
    | _ :: _, [] => false
    | p :: ps, c :: cs => p = c && go ps cs

/-- Does `s` end with `suf`?  (Python `str.endswith`.) -/
def strEndsWith (s suf : String) : Bool :=
  s.data.drop (s.data.length - suf.data.length) = suf.data

/-- Python `str.lower()` (ASCII letters suffice for the inputs at hand). -/
def strToLower (s : String) : String := ⟨s.data.map Char.toLower⟩

/-- `','.join(strs)` on character lists. -/
def joinComma : List (List Char) → List Char
  | [] => []
  | [x] => x
  | x :: xs => x ++ ',' :: joinComma xs

/-- Numeric value of a digit string (most significant first). -/
def digitsVal (cs : List Char) : ℕ :=
  cs.foldl (fun a c => a * 10 + (c.toNat - 48)) 0

/-- Split a character list at every occurrence of a character. -/
def splitOnChar (sep : Char) : List Char → List (List Char) := pySplitL sep

/-- Parse an optional leading sign; returns (isNegative, rest). -/
def parseSign : List Char → Bool × List Char
  | '+' :: r => (false, r)
  | '-' :: r => (true, r)
  | r => (false, r)

/-- Parse an unsigned decimal mantissa (`12`, `12.`, `.5`, `12.5`) as an
exact rational. -/
def parseUnsignedReal (cs : List Char) : Option ℚ :=
  match splitOnChar '.' cs with
  | [w] =>
    if w ≠ [] ∧ w.all Char.isDigit then some (digitsVal w) else none
  | [w, f] =>
    if (w ≠ [] ∨ f ≠ []) ∧ w.all Char.isDigit ∧ f.all Char.isDigit then
      some ((digitsVal w : ℚ) + (digitsVal f : ℚ) / (10 ^ f.length))
    else none
  | _ => none

/-- Parse a signed decimal exponent (digits required). -/
def parseExponent (cs : List Char) : Option ℤ :=
  let (neg, d) := parseSign cs
  if d ≠ [] ∧ d.all Char.isDigit then
    some (if neg then -(digitsVal d : ℤ) else (digitsVal d : ℤ))
  else none

/-- Core of Python `float(s)` after stripping: sign, `inf`/`infinity`/`nan`
literals (case-insensitive), or decimal mantissa with optional exponent.
`none` models `ValueError`. -/
def pyFloatCore (cs0 : List Char) : Option PyFloat :=
  let cs := cs0.map Char.toLower
  let (neg, r) := parseSign cs
  if r = "inf".data ∨ r = "infinity".data then
    some (if neg then .negInf else .inf)
  else if r = "nan".data then some .nan
  else
    match splitOnChar 'e' r with
    | [m] => (parseUnsignedReal m).map (fun q => .finite (if neg then -q else q))
    | [m, e] =>
      match parseUnsignedReal m, parseExponent e with
      | some q, some ex =>
        some (.finite ((if neg then -q else q) * (10 : ℚ) ^ ex))
      | _, _ => none
    | _ => none

/-- Python `float(s)` on a string; `none` models `ValueError`. -/
def pyFloatOfString (s : String) : Option PyFloat :=
  pyFloatCore (pyStripL s.data)

/-- Python `int(s)` on a string; `none` models `ValueError`. -/
def pyIntOfString (s : String) : Option ℤ :=
  let (neg, d) := parseSign (pyStripL s.data)
  if d ≠ [] ∧ d.all Char.isDigit then
    some (if neg then -(digitsVal d : ℤ) else (digitsVal d : ℤ))
  else none

/-- Python `int(x)` on a finite float: truncation toward zero. -/
def ratTrunc (q : ℚ) : ℤ := if 0 ≤ q then ⌊q⌋ else ⌈q⌉

/-! ## Hourly record decoder (`create_hourly_dataframe`) -/

/-- The textual missing-value sentinels recognised by
`create_hourly_dataframe` (source lines 284). -/
def epwSentinels : List String :=
  ["*", "**", "***", "****", "*****", "******", "?", "??", "undefined"]

/-- The columns coerced to `int` besides the first five
(source line 289: `j < 5 or j in [20, 22, 23, 26, 27, 31]`). -/
def intCols : List ℕ := [20, 22, 23, 26, 27, 31]

/-- A decoded cell of an hourly record: the raw string for the DataFlags
column, or an optional numeric value (`none` is the missing marker,
Python `None`). -/
inductive Cell where
  | str (s : String)
  | num (v : Option PyFloat)
deriving DecidableEq, Repr

/-- Decode one comma-separated field of an EPW hourly line, for column
index `j < 35` (source lines 278–295).  The error case models the uncaught
`OverflowError` raised by `int(value)` when `float(part)` returned an
infinity (only `ValueError` is caught by the source). -/
def decodeCell (j : ℕ) (part : String) : Except String Cell :=
  if j ≠ 5 then
    if pyStripS part ∈ epwSentinels then .ok (.num none)
    else
      match (if pyStripS part ≠ "" then pyFloatOfString part else some (.finite 0)) with
      | none => .ok (.num none)
      | some v =>
        if j < 5 ∨ j ∈ intCols then
          match v with
          | .finite q => .ok (.num (some (.finite ((ratTrunc q : ℤ) : ℚ))))
          | .nan => .ok (.num none)
          | .inf => .error "OverflowError: cannot convert float infinity to integer"
          | .negInf => .error "OverflowError: cannot convert float infinity to integer"
        else .ok (.num (some v))
  else .ok (.str part)

/-- Decode the cells of one hourly line: strip, split on commas, decode
each field with index below 35 (fields at index ≥ 35 are skipped). -/
def decodeCellsAux : ℕ → List String → Except String (List Cell)
  | _, [] => .ok []
  | j, p :: ps =>
    if j < 35 then
      match decodeCell j p with
      | .error e => .error e
      | .ok c =>
        match decodeCellsAux (j + 1) ps with
        | .error e => .error e
        | .ok cs => .ok (c :: cs)
    else .ok []

/-- All decoded cells of one EPW hourly data line. -/
def decodeLineCells (line : String) : Except String (List Cell) :=
  decodeCellsAux 0 (pySplit (pyStripS line) ',')

/-- One decoded hourly record: its cells and the 1-based running
`hour_index` assigned at decode time (source line 299). -/
structure HourlyRow where
  cells : List Cell
  hour_index : ℕ
deriving DecidableEq, Repr

/-- Decode a list of hourly lines starting at a given 1-based index. -/
def chdAux : ℕ → List String → Except String (List HourlyRow)
  | _, [] => .ok []
  | i, l :: ls =>
    match decodeLineCells l with
    | .error e => .error e
    | .ok cells =>
      match chdAux (i + 1) ls with
      | .error e => .error e
      | .ok rest => .ok (⟨cells, i⟩ :: rest)

/-- `create_hourly_dataframe` (source lines 257–304): one record per input
line, with `hour_index` the 1-based running count of lines. -/
def createHourlyDataframe (lines : List String) : Except String (List HourlyRow) :=
  chdAux 1 lines

/-! ## EPW header parser (`parse_epw_header`) -/

/-- Does a line (after stripping) begin with the data-period marker?
(source line 211). -/
def isDataPeriodsLine (line : String) : Bool :=
  strStartsWith (pyStripS line) "DATA PERIODS,"

/-- The loop of source lines 209–217: the index right after the first
marker line, defaulting to 8 when no line matches. -/
def dataStartAux : List String → ℕ → ℕ
  | [], _ => 8
  | l :: ls, i => if isDataPeriodsLine l then i + 1 else dataStartAux ls (i + 1)

/-- Station metadata extracted from the first EPW line
(source lines 219–231, in dict insertion order). -/
structure EpwMeta where
  station_name : String
  state_province : String
  country : String
  latitude : PyFloat
  longitude : PyFloat
  elevation : PyFloat
  timezone : PyFloat
  source_type : String
  wmo_station_id : String
  comment_1 : String
  comment_2 : String
deriving DecidableEq, Repr

/-- Indexing `fields[k]`; the error models `IndexError`. -/
def listIdx (l : List String) (k : ℕ) : Except String String :=
  match l.get? k with
  | some s => .ok s
  | none => .error "IndexError: list index out of range"

/-- `float(fields[k]) if fields[k].strip() else 0.0`
(source lines 223–226); the error models `ValueError`. -/
def floatFieldOrZero (s : String) : Except String PyFloat :=
  if pyStripS s = "" then .ok (.finite 0)
  else
    match pyFloatOfString s with
    | some v => .ok v
    | none => .error "ValueError: could not convert string to float"

/-- `lines[k].strip().split(',', 1)[-1]`: everything after the first comma
of the stripped line, or the whole stripped line when it has no comma. -/
def afterFirstComma (s : String) : String :=
  match (pySplitL ',' s.data) with
  | [] => s
  | [whole] => ⟨whole⟩
  | _ :: rest => ⟨joinComma rest⟩

/-- The fallible metadata-dict construction of `parse_epw_header`
(source lines 219–231). -/
def parseEpwMeta (lines : List String) : Except String EpwMeta := do
  let l0 ← match lines with
    | [] => Except.error "IndexError: list index out of range"
    | l :: _ => Except.ok l
  let fields := pySplit l0 ','
  let f1 ← listIdx fields 1
  let f2 ← listIdx fields 2
  let f3 ← listIdx fields 3
  let f4 ← listIdx fields 4
  let f5 ← listIdx fields 5
  let f6 ← listIdx fields 6
  let f7 ← listIdx fields 7
  let f8 ← listIdx fields 8
  let f9 ← listIdx fields 9
  let lat ← floatFieldOrZero f6
  let lon ← floatFieldOrZero f7
  let elev ← floatFieldOrZero f9
  let tz ← floatFieldOrZero f8
  let c1 := if 5 < lines.length then afterFirstComma (pyStripS (lines.getD 5 "")) else ""
  let c2 := if 6 < lines.length then afterFirstComma (pyStripS (lines.getD 6 "")) else ""
  .ok { station_name := pyStripS f1, state_province := pyStripS f2,
        country := pyStripS f3, latitude := lat, longitude := lon,
        elevation := elev, timezone := tz, source_type := pyStripS f4,
        wmo_station_id := pyStripS f5, comment_1 := c1, comment_2 := c2 }

/-- `parse_epw_header` (source lines 205–231): station metadata from the
comma-split first line plus the first-hourly-data index (the index is
computed unconditionally by the loop before the dict is built). -/
def parseEpwHeader (lines : List String) : Except String (EpwMeta × ℕ) :=
  (parseEpwMeta lines).map (fun m => (m, dataStartAux lines 0))

/-! ## Catalog extraction (`insert_location`, source lines 306–324)

The source applies `re.search(r"((TMY|TRY|CWEC).*)(\.epw)$", epw_filename)`
and takes group 1.  The embedding `catalogMatch` implements the semantics of
that search directly: the string must end in the literal `.epw`; group 1 is
the remainder of the string from the leftmost position at which one of the
tags `TMY`/`TRY`/`CWEC` starts, provided `.*` can span the region between
the tag and the final `.epw` (i.e. it contains no newline, which `.` does
not match).  A tag cannot overlap the final `.epw` since the tags are upper
case and `.epw` is not.  Not modelled: `$` also matching just before a
trailing newline (zip member names never end in a newline). -/

/-- The catalog tags of the pattern, in alternation order. -/
def catalogTags : List String := ["TMY", "TRY", "CWEC"]

/-- Length of the tag starting at the head of `l`, if any. -/
def tagAt (l : List Char) : Option ℕ :=
  if l.take 3 = "TMY".data then some 3
  else if l.take 3 = "TRY".data then some 3
  else if l.take 4 = "CWEC".data then some 4
  else none

/-- Can the suffix `l` of the pre-`.epw` body be matched by
`(TMY|TRY|CWEC).*` in full?  (tag at its head, no newline anywhere —
tag characters are never newlines, so testing all of `l` is equivalent
to testing the part after the tag). -/
def goodSuffix (l : List Char) : Bool :=
  (tagAt l).isSome && decide ('\n' ∉ l)

/-- Leftmost suffix of the body matched by `(TMY|TRY|CWEC).*`. -/
def findCatalog : List Char → Option (List Char)
  | [] => none
  | c :: cs => if goodSuffix (c :: cs) then some (c :: cs) else findCatalog cs

/-- Group 1 of `re.search(r"((TMY|TRY|CWEC).*)(\.epw)$", s)`, if the
pattern matches. -/
def catalogMatch (s : String) : Option String :=
  let cs := s.data
  if 4 ≤ cs.length ∧ cs.drop (cs.length - 4) = ".epw".data then
    (findCatalog (cs.take (cs.length - 4))).map (fun g => ⟨g⟩)
  else none

/-! ## The store and its row types -/

/-- One row of `locations_metadata` (insert at source lines 317–322;
column order matches the dict insertion order of `parse_epw_header`
followed by `epw_file` and `catalog`). -/
structure LocationRow where
  id : ℕ
  meta : EpwMeta
  epw_file : String
  catalog : String
deriving DecidableEq, Repr

/-- One row of `typical_periods_data` (source lines 416–422). -/
structure TypicalPeriodRow where
  locId : ℕ
  period_type : String
  period_name : String
  start_month : ℤ
  start_day : ℤ
  end_month : ℤ
  end_day : ℤ
deriving DecidableEq, Repr

/-- One row of `ground_temperatures_data` (source lines 460–467). -/
structure GroundTempRow where
  locId : ℕ
  depth : PyFloat
  soil_conductivity : PyFloat
  soil_density : PyFloat
  soil_specific_heat : PyFloat
  monthly : List PyFloat
deriving DecidableEq, Repr

/-- One row of `holidays_dst_data` (source lines 487–491). -/
structure HolidaysDstRow where
  locId : ℕ
  uses_holidays : String
  dst_start_day : ℤ
  dst_end_day : ℤ
  dst_indicator : ℤ
deriving DecidableEq, Repr

/-- One row of `data_periods` (source lines 524–530). -/
structure DataPeriodRow where
  locId : ℕ
  num_periods : ℤ
  intervals_per_hour : ℤ
  period_type : String
  period_name : String
  start_month : ℤ
  start_day : ℤ
  end_month : ℤ
  end_day : ℤ
deriving DecidableEq, Repr

/-- One derived design-day block (tuples built at source lines 355–370). -/
structure DesignDay where
  name : String
  month : ℤ
  day : ℤ
  temp : PyFloat
  humidity_value : ℚ
  humidity_type : String
  wind_speed : ℚ
  wind_direction : ℤ
deriving DecidableEq, Repr

/-- The relational store: one list of rows per table touched by the
per-archive pipeline. -/
structure Store where
  locations : List LocationRow
  designConditions : List (ℕ × String)
  typicalPeriods : List TypicalPeriodRow
  groundTemps : List GroundTempRow
  holidaysDst : List HolidaysDstRow
  dataPeriods : List DataPeriodRow
  hourly : List (ℕ × HourlyRow)
  designDays : List (ℕ × DesignDay)
deriving DecidableEq, Repr

/-- A store with no rows. -/
def emptyStore : Store := ⟨[], [], [], [], [], [], [], []⟩

/-- `insert_location` (source lines 306–324): a missing catalog match
raises `ValueError` before any insert; otherwise the row is inserted and
the store-assigned key returned. -/
def insertLocation (st : Store) (m : EpwMeta) (fname : String) :
    Except String (Store × ℕ) :=
  match catalogMatch fname with
  | some cat =>
    let id := st.locations.length + 1
    .ok ({ st with locations := st.locations ++ [⟨id, m, fname, cat⟩] }, id)
  | none => .error ("ValueError: Catalog not found in filename: " ++ fname)

/-! ## EPW metadata handlers (`parse_epw_metadata` and sub-parsers) -/

/-- `float(parts[idx]) if parts[idx].strip() else 0.0` under an enclosing
`except Exception` handler: `none` on a missing index or a parse failure. -/
def gtField (parts : List String) (idx : ℕ) : Option PyFloat := do
  let s ← parts.get? idx
  if pyStripS s = "" then pure (.finite 0) else pyFloatOfString s

/-- Rows produced by the typical/extreme periods loop
(source lines 389–426).  The first argument of the recursion is the
remaining iteration count `num_periods - i`, the second the running
`current_idx`.  A malformed date or a failed `int()` inside the `try`
is caught and only skips that period. -/
def typRows (parts : List String) (locId : ℕ) : ℕ → ℕ → List TypicalPeriodRow
  | 0, _ => []
  | n + 1, ci =>
    if parts.length ≤ ci + 3 then []
    else
      let name := pyStripS (parts.getD ci "")
      let ptype := pyStripS (parts.getD (ci + 1) "")
      let sd := pyStripS (parts.getD (ci + 2) "")
      let ed := pyStripS (parts.getD (ci + 3) "")
      let row? : Option TypicalPeriodRow :=
        match pySplit sd '/', pySplit ed '/' with
        | [sm, sdy], [em, edy] =>
          match pyIntOfString sm, pyIntOfString sdy,
                pyIntOfString em, pyIntOfString edy with
          | some a, some b, some c, some d => some ⟨locId, ptype, name, a, b, c, d⟩
          | _, _, _, _ => none
        | _, _ => none
      (match row? with | some r => [r] | none => []) ++ typRows parts locId n (ci + 4)

/-- `parse_typical_periods` (source lines 373–428).  `int(parts[1])`
can raise an uncaught `ValueError`. -/
def parseTypicalPeriods (line : String) (st : Store) (locId : ℕ) :
    Except String Store :=
  if ¬ strStartsWith line "TYPICAL/EXTREME PERIODS" then .ok st
  else
    let parts := pySplit line ','
    if parts.length < 3 then .ok st
    else
      match pyIntOfString (parts.getD 1 "") with
      | none => .error "ValueError: invalid literal for int()"
      | some n =>
        .ok { st with typicalPeriods :=
                st.typicalPeriods ++ typRows parts locId n.toNat 2 }

/-- Rows produced by the ground-temperature loop (source lines 443–469);
first argument is the remaining iteration count, second the iteration
index `i` (so `base_idx = 2 + 16 i`).  Any failure inside the per-depth
`try` skips that depth and continues. -/
def groundRows (parts : List String) (locId : ℕ) : ℕ → ℕ → List GroundTempRow
  | 0, _ => []
  | n + 1, i =>
    let base := 2 + 16 * i
    if parts.length ≤ base then []
    else
      let row? : Option GroundTempRow := do
        let ds ← parts.get? base
        let depth ← pyFloatOfString ds
        let sc ← gtField parts (base + 1)
        let sdn ← gtField parts (base + 2)
        let ssh ← gtField parts (base + 3)
        let ms ← (List.range 12).mapM (fun k => gtField parts (base + 4 + k))
        pure ⟨locId, depth, sc, sdn, ssh, ms⟩
      (match row? with | some r => [r] | none => []) ++ groundRows parts locId n (i + 1)

/-- `parse_ground_temps` (source lines 430–471).  `int(parts[1])` can
raise an uncaught `ValueError`. -/
def parseGroundTemps (line : String) (st : Store) (locId : ℕ) :
    Except String Store :=
  if ¬ strStartsWith line "GROUND TEMPERATURES" then .ok st
  else
    let parts := pySplit line ','
    if parts.length < 3 then .ok st
    else
      match pyIntOfString (parts.getD 1 "") with
      | none => .error "ValueError: invalid literal for int()"
      | some n =>
        .ok { st with groundTemps :=
                st.groundTemps ++ groundRows parts locId n.toNat 0 }

/-- `int(parts[idx]) if parts[idx].strip() else 0`, with an uncaught
`ValueError` on a malformed non-blank field (source lines 482–484). -/
def intFieldOrZero (parts : List String) (idx : ℕ) : Except String ℤ :=
  let s := parts.getD idx ""
  if pyStripS s = "" then .ok 0
  else
    match pyIntOfString s with
    | some v => .ok v
    | none => .error "ValueError: invalid literal for int()"

/-- `parse_holidays_dst` (source lines 473–492). -/
def parseHolidaysDst (line : String) (st : Store) (locId : ℕ) :
    Except String Store :=
  if ¬ strStartsWith line "HOLIDAYS/DAYLIGHT SAVINGS" then .ok st
  else
    let parts := pySplit line ','
    if parts.length < 5 then .ok st
    else
      match intFieldOrZero parts 2 with
      | .error e => .error e
      | .ok s =>
        match intFieldOrZero parts 3 with
        | .error e => .error e
        | .ok e =>
          match intFieldOrZero parts 4 with
          | .error er => .error er
          | .ok ind =>
            .ok { st with holidaysDst :=
                    st.holidaysDst ++ [⟨locId, parts.getD 1 "", s, e, ind⟩] }

/-- `parse_data_periods` (source lines 494–534): the whole body is inside
one `try`, so any failure merely skips the row. -/
def parseDataPeriods (line : String) (st : Store) (locId : ℕ) :
    Except String Store :=
  if ¬ strStartsWith line "DATA PERIODS" then .ok st
  else
    let parts := pySplit line ','
    if parts.length < 6 then .ok st
    else
      let row? : Option DataPeriodRow := do
        let np ← pyIntOfString (parts.getD 1 "")
        let iph ← pyIntOfString (parts.getD 2 "")
        let ptype := pyStripS (parts.getD 3 "")
        let pname := pyStripS (parts.getD 4 "")
        let sd ← parts.get? 5
        let sps := pySplit (pyStripS sd) '/'
        let s0 ← sps.get? 0
        let sm ← pyIntOfString s0
        let s1 ← sps.get? 1
        let sday ← pyIntOfString (pyStripS s1)
        let ed ← parts.get? 6
        let eps := pySplit (pyStripS ed) '/'
        let e0 ← eps.get? 0
        let em ← pyIntOfString e0
        let e1 ← eps.get? 1
        let eday ← pyIntOfString (pyStripS e1)
        pure ⟨locId, np, iph, ptype, pname, sm, sday, em, eday⟩
      .ok { st with dataPeriods :=
              st.dataPeriods ++ (match row? with | some r => [r] | none => []) }

/-- Dispatch one header line against the metadata handlers in dict
insertion order, first match only (source lines 537–554).  The design
conditions handler stores `','.join(parts[1:])` as a raw blob. -/
def dispatchLine (line : String) (st : Store) (locId : ℕ) :
    Except String Store :=
  let stripped := pyStripS line
  if strStartsWith stripped "DESIGN CONDITIONS," then
    .ok { st with designConditions :=
            st.designConditions ++
              [(locId, ⟨joinComma ((pySplitL ',' line.data).drop 1)⟩)] }
  else if strStartsWith stripped "TYPICAL/EXTREME PERIODS," then
    parseTypicalPeriods line st locId
  else if strStartsWith stripped "GROUND TEMPERATURES," then
    parseGroundTemps line st locId
  else if strStartsWith stripped "HOLIDAYS/DAYLIGHT SAVINGS," then
    parseHolidaysDst line st locId
  else if strStartsWith stripped "DATA PERIODS," then
    parseDataPeriods line st locId
  else .ok st

/-- Fold the dispatcher over a list of lines, carrying the committed
store into the error value when a handler raises. -/
def metadataAux : List String → Store → ℕ → Except (Store × String) Store
  | [], st, _ => .ok st
  | l :: ls, st, locId =>
    match dispatchLine l st locId with
    | .error e => .error (st, e)
    | .ok st' => metadataAux ls st' locId

/-- `parse_epw_metadata` (source lines 537–554): only the first 20 lines
are examined. -/
def parseEpwMetadata (lines : List String) (st : Store) (locId : ℕ) :
    Except (Store × String) Store :=
  metadataAux (lines.take 20) st locId

/-! ## IEEE-style arithmetic and comparisons on `PyFloat`

Only the operations used by `extract_design_days` are modelled: order
comparison (for `min`/`max`/`sort_values`/`idxmax`), addition and division
by a count (for `mean`), and multiplication (for the humidity index). -/

/-- Non-NaN order on floats (`false` whenever either side is NaN,
as in IEEE comparisons). -/
def pfLe : PyFloat → PyFloat → Bool
  | .nan, _ => false
  | _, .nan => false
  | .negInf, _ => true
  | _, .negInf => false
  | _, .inf => true
  | .inf, _ => false
  | .finite a, .finite b => a ≤ b

/-- Strict variant of `pfLe`. -/
def pfLt (a b : PyFloat) : Bool := pfLe a b && !(pfLe b a)

/-- The key order used by `sort_values`: NaN keys sort last
(pandas `na_position='last'`), others by `pfLe`, reversed when
`ascending=False`. -/
def pfKeyLe (asc : Bool) (a b : PyFloat) : Bool :=
  if a.isNan then b.isNan
  else if b.isNan then true
  else if asc then pfLe a b else pfLe b a

/-- Float addition. -/
def pfAdd : PyFloat → PyFloat → PyFloat
  | .nan, _ => .nan
  | _, .nan => .nan
  | .finite a, .finite b => .finite (a + b)
  | .inf, .negInf => .nan
  | .negInf, .inf => .nan
  | .inf, _ => .inf
  | _, .inf => .inf
  | .negInf, _ => .negInf
  | _, .negInf => .negInf

/-- Float multiplication. -/
def pfMul : PyFloat → PyFloat → PyFloat
  | .nan, _ => .nan
  | _, .nan => .nan
  | .finite a, .finite b => .finite (a * b)
  | .inf, .inf => .inf
  | .inf, .negInf => .negInf
  | .negInf, .inf => .negInf
  | .negInf, .negInf => .inf
  | .inf, .finite b => if 0 < b then .inf else if b < 0 then .negInf else .nan
  | .finite a, .inf => if 0 < a then .inf else if a < 0 then .negInf else .nan
  | .negInf, .finite b => if 0 < b then .negInf else if b < 0 then .inf else .nan
  | .finite a, .negInf => if 0 < a then .negInf else if a < 0 then .inf else .nan

/-- Division of a float by a positive count. -/
def pfDivNat (v : PyFloat) (n : ℕ) : PyFloat :=
  if n = 0 then .nan
  else
    match v with
    | .finite q => .finite (q / n)
    | .inf => .inf
    | .negInf => .negInf
    | .nan => .nan

/-! ## Design-day deriver (`extract_design_days`, source lines 340–371) -/

/-- Numeric value of cell `j` of a record as it appears in the DataFrame:
a missing cell or an explicit `None` becomes NaN. -/
def getNum (r : HourlyRow) (j : ℕ) : PyFloat :=
  match r.cells.get? j with
  | some (.num (some v)) => v
  | _ => .nan

/-- Column `j` of a list of records with NaNs dropped
(pandas aggregations default to `skipna=True`). -/
def aggVals (rows : List HourlyRow) (j : ℕ) : List PyFloat :=
  (rows.map (fun r => getNum r j)).filter (fun v => !v.isNan)

/-- `min` aggregation (NaN on an empty group). -/
def pfMinAgg : List PyFloat → PyFloat
  | [] => .nan
  | v :: vs => vs.foldl (fun a b => if pfLe a b then a else b) v

/-- `max` aggregation (NaN on an empty group). -/
def pfMaxAgg : List PyFloat → PyFloat
  | [] => .nan
  | v :: vs => vs.foldl (fun a b => if pfLe a b then b else a) v

/-- Sum of a non-empty value list. -/
def pfSum : List PyFloat → PyFloat
  | [] => .finite 0
  | v :: vs => vs.foldl pfAdd v

/-- `mean` aggregation (NaN on an empty group). -/
def pfMeanAgg (l : List PyFloat) : PyFloat :=
  if l.length = 0 then .nan else pfDivNat (pfSum l) l.length

/-- Gregorian leap year. -/
def isLeap (y : ℤ) : Bool := (y % 4 = 0 && y % 100 ≠ 0) || y % 400 = 0

/-- Days in a month of the proleptic Gregorian calendar. -/
def daysInMonth (y m : ℤ) : ℤ :=
  if m = 2 then (if isLeap y then 29 else 28)
  else if m = 4 ∨ m = 6 ∨ m = 9 ∨ m = 11 then 30
  else 31

/-- An integer date component for `pd.to_datetime`: the value must be a
finite integral float (NaN or a fractional value raises). -/
def asDateInt (v : PyFloat) : Except String ℤ :=
  match v with
  | .finite q => if q.den = 1 then .ok q.num else .error "ValueError: cannot assemble the datetimes"
  | _ => .error "ValueError: cannot assemble the datetimes"

/-- `pd.to_datetime(df[["Year", "Month", "Day"]])` for one record
(source line 342): requires a valid calendar date.  (The pandas
nanosecond-timestamp year bounds 1677–2262 are not modelled; all
concrete inputs below are inside them.) -/
def dateOfRow (r : HourlyRow) : Except String (ℤ × ℤ × ℤ) := do
  let y ← asDateInt (getNum r 0)
  let m ← asDateInt (getNum r 1)
  let d ← asDateInt (getNum r 2)
  if 1 ≤ m ∧ m ≤ 12 ∧ 1 ≤ d ∧ d ≤ daysInMonth y m then .ok (y, m, d)
  else .error "ValueError: cannot assemble the datetimes"

/-- Ascending lexicographic order on dates. -/
def dateLe (a b : ℤ × ℤ × ℤ) : Bool :=
  a.1 < b.1 ∨ (a.1 = b.1 ∧ (a.2.1 < b.2.1 ∨ (a.2.1 = b.2.1 ∧ a.2.2 ≤ b.2.2)))

/-- The order relation used to sort group keys. -/
def dateRel (a b : ℤ × ℤ × ℤ) : Prop := dateLe a b = true

instance : DecidableRel dateRel := fun a b =>
  inferInstanceAs (Decidable (dateLe a b = true))

/-- One row of the `daily` frame: the group key (calendar date) plus its
aggregated metrics (source lines 343–348). -/
structure DayRow where
  year : ℤ
  month : ℤ
  day : ℤ
  minT : PyFloat
  maxT : PyFloat
  meanT : PyFloat
  meanRH : PyFloat
deriving DecidableEq, Repr

/-- `df.groupby("Date").agg(...)` with the group keys sorted ascending
(pandas `groupby` defaults to `sort=True`): one `DayRow` per distinct
date, with min/max/mean dry-bulb (column 6) and mean RH (column 8). -/
def buildDaily (dated : List ((ℤ × ℤ × ℤ) × HourlyRow)) : List DayRow :=
  let keys := (dated.map Prod.fst).eraseDups
  let sortedKeys := List.insertionSort dateRel keys
  sortedKeys.map (fun k =>
    let rows := (dated.filter (fun p => p.1 = k)).map Prod.snd
    { year := k.1, month := k.2.1, day := k.2.2,
      minT := pfMinAgg (aggVals rows 6),
      maxT := pfMaxAgg (aggVals rows 6),
      meanT := pfMeanAgg (aggVals rows 6),
      meanRH := pfMeanAgg (aggVals rows 8) })

/-- The row order used by `daily.sort_values(col, ascending=asc)`. -/
def dayRel (key : DayRow → PyFloat) (asc : Bool) (a b : DayRow) : Prop :=
  pfKeyLe asc (key a) (key b) = true

instance (key : DayRow → PyFloat) (asc : Bool) : DecidableRel (dayRel key asc) :=
  fun a b => inferInstanceAs (Decidable (pfKeyLe asc (key a) (key b) = true))

/-- The key-level order relation corresponding to `pfKeyLe`. -/
def pfKeyRel (asc : Bool) (a b : PyFloat) : Prop := pfKeyLe asc a b = true

instance (asc : Bool) : DecidableRel (pfKeyRel asc) :=
  fun a b => inferInstanceAs (Decidable (pfKeyLe asc a b = true))

instance (asc : Bool) : IsTrans PyFloat (pfKeyRel asc) := by
  constructor
  intro a b c hab hbc
  unfold pfKeyRel pfKeyLe at *
  cases asc <;> cases a <;> cases b <;> cases c <;>
      simp_all [pfLe, PyFloat.isNan] <;> linarith

instance (asc : Bool) : IsTotal PyFloat (pfKeyRel asc) := by
  constructor
  intro a b
  unfold pfKeyRel pfKeyLe
  cases asc <;> cases a <;> cases b <;>
      simp_all [pfLe, PyFloat.isNan] <;> exact le_total _ _

instance (asc : Bool) : IsAntisymm PyFloat (pfKeyRel asc) := by
  constructor
  intro a b hab hba
  unfold pfKeyRel pfKeyLe at *
  cases asc <;> cases a <;> cases b <;>
      simp_all [pfLe, PyFloat.isNan] <;> linarith

instance (key : DayRow → PyFloat) (asc : Bool) : IsTrans DayRow (dayRel key asc) := by
  constructor
  intro a b c hab hbc
  have h := IsTrans.trans (key a) (key b) (key c)
    (show pfKeyRel asc (key a) (key b) from hab)
    (show pfKeyRel asc (key b) (key c) from hbc)
  exact h

instance (key : DayRow → PyFloat) (asc : Bool) : IsTotal DayRow (dayRel key asc) := by
  constructor
  intro a b
  exact @IsTotal.total PyFloat (pfKeyRel asc) _ (key a) (key b)

/-- `daily.sort_values(col, ascending=asc)`.  The source relies on
pandas' default quicksort, whose order among tied keys is
algorithm-specific; the embedding uses a deterministic (stable) sort,
which realises one admissible tie order. -/
def sortValues (daily : List DayRow) (key : DayRow → PyFloat) (asc : Bool) :
    List DayRow :=
  List.insertionSort (dayRel key asc) daily

/-- `sorted_df.iloc[idx]` including negative-index wrap-around;
the error models `IndexError`. -/
def pandasIloc (l : List DayRow) (idx : ℤ) : Except String DayRow :=
  let j := if 0 ≤ idx then idx else idx + l.length
  if h : 0 ≤ j ∧ j.toNat < l.length then .ok (l.get ⟨j.toNat, h.2⟩)
  else .error "IndexError: single positional indexer is out-of-bounds"

/-- `percentile_day` (source lines 350–353): sort by the metric and take
`iloc[int(len(sorted_df) * (pct / 100))]`. -/
def percentileDay (daily : List DayRow) (key : DayRow → PyFloat) (pct : ℚ)
    (asc : Bool) : Except String DayRow :=
  let sorted := sortValues daily key asc
  pandasIloc sorted (ratTrunc ((sorted.length : ℚ) * (pct / 100)))

/-- `daily.loc[daily.HumidIndex.idxmax()]`: the first row attaining the
maximal non-NaN value; raises on an all-NaN/empty column. -/
def idxmaxRow (daily : List DayRow) (f : DayRow → PyFloat) :
    Except String DayRow :=
  match daily.filter (fun d => !(f d).isNan) with
  | [] => .error "ValueError: attempt to get argmax of an empty sequence"
  | c :: cs => .ok (cs.foldl (fun best d => if pfLt (f best) (f d) then d else best) c)

/-- `daily[daily.Date.dt.month == m].iloc[0]`: the first daily row in
month `m`; raises `IndexError` when the month is absent
(source lines 367, 369). -/
def firstMonthRow (daily : List DayRow) (m : ℤ) : Except String DayRow :=
  match daily.filter (fun d => d.month = m) with
  | [] => .error "IndexError: single positional indexer is out-of-bounds"
  | d :: _ => .ok d

/-- `extract_design_days` (source lines 340–371): derive the seven
design-day blocks from the decoded hourly series. -/
def extractDesignDays (df : List HourlyRow) : Except String (List DesignDay) := do
  let dated ← df.mapM (fun r => do
    let k ← dateOfRow r
    pure (k, r))
  let daily := buildDaily dated
  let h996 ← percentileDay daily DayRow.minT (2/5) true
  let h99 ← percentileDay daily DayRow.minT 1 true
  let c04 ← percentileDay daily DayRow.maxT (498/5) false
  let c1 ← percentileDay daily DayRow.maxT 99 false
  let humid ← idxmaxRow daily (fun d => pfMul d.maxT (pfDivNat d.meanRH 100))
  let jan ← firstMonthRow daily 1
  let jul ← firstMonthRow daily 7
  .ok [⟨"Heating 99.6%", h996.month, h996.day, h996.minT, 1/1000, "HumidityRatio", 5/2, 270⟩,
       ⟨"Heating 99%", h99.month, h99.day, h99.minT, 1/1000, "HumidityRatio", 5/2, 270⟩,
       ⟨"Cooling 0.4%", c04.month, c04.day, c04.maxT, 21, "WetBulb", 5/2, 270⟩,
       ⟨"Cooling 1%", c1.month, c1.day, c1.maxT, 21, "WetBulb", 5/2, 270⟩,
       ⟨"Cooling Humid", humid.month, humid.day, humid.maxT, 24, "WetBulb", 5/2, 270⟩,
       ⟨"Clear Winter", jan.month, jan.day, jan.maxT, 1/1000, "HumidityRatio", 5/2, 270⟩,
       ⟨"Clear Summer", jul.month, jul.day, jul.maxT, 21, "WetBulb", 5/2, 270⟩]

/-! ## Archive ingestion orchestrator (`process_single_zip`) -/

/-- A zip archive: its member names with their text content as lines. -/
structure ZipArchive where
  members : List (String × List String)
deriving Repr

/-- `extract_epw_from_zip` (source lines 233–255): the first member whose
lower-cased name ends in `.epw`, or `None`. -/
def extractEpwFromZip (z : ZipArchive) : Option (String × List String) :=
  z.members.find? (fun p => strEndsWith (strToLower p.1) ".epw")

/-- `insert_hourly_data` (source lines 326–328). -/
def insertHourlyData (st : Store) (locId : ℕ) (rows : List HourlyRow) : Store :=
  { st with hourly := st.hourly ++ rows.map (fun r => (locId, r)) }

/-- `insert_design_days` (source lines 330–338). -/
def insertDesignDays (st : Store) (locId : ℕ) (blocks : List DesignDay) : Store :=
  { st with designDays := st.designDays ++ blocks.map (fun b => (locId, b)) }

/-- The per-archive pipeline body of `process_single_zip`
(source lines 566–580).  Every stage commits before the next begins, so
an exception carries the store with all previously committed rows —
there is no rollback of committed work. -/
def processEpw (fname : String) (lines : List String) (st : Store) :
    Except (Store × String) Store :=
  match parseEpwHeader lines with
  | .error e => .error (st, e)
  | .ok (meta, idx) =>
    match insertLocation st meta fname with
    | .error e => .error (st, e)
    | .ok (st1, locId) =>
      match parseEpwMetadata lines st1 locId with
      | .error p => .error p
      | .ok st2 =>
        match createHourlyDataframe (lines.drop idx) with
        | .error e => .error (st2, e)
        | .ok rows =>
          let st3 := insertHourlyData st2 locId rows
          match extractDesignDays rows with
          | .error e => .error (st3, e)
          | .ok blocks => .ok (insertDesignDays st3 locId blocks)

/-- `process_single_zip` (source lines 556–584): no EPW member means an
early `False` return; any exception from the pipeline is caught and
reported as `False`, with all already-committed rows kept. -/
def processSingleZip (z : ZipArchive) (st : Store) : Bool × Store :=
  match extractEpwFromZip z with
  | none => (false, st)
  | some (fname, lines) =>
    match processEpw fname lines st with
    | .ok st4 => (true, st4)
    | .error (st', _) => (false, st')

/-- The sequential batch loop of `process_zip_folder_to_db`
(source lines 627–632); the parallel path serialises archives behind one
lock, so it realises some permutation of the same per-archive steps. -/
def processZips : List ZipArchive → Store → List Bool × Store
  | [], st => ([], st)
  | z :: zs, st =>
    let (b, st') := processSingleZip z st
    let (bs, st'') := processZips zs st'
    (b :: bs, st'')

/-! ## wy3 → EPW transcoder (`generate_epw_from_wy3.py`) -/

/-- Python slicing `s[a:b]` (clamping, never raising). -/
def pySliceStr (s : String) (a b : ℕ) : String :=
  ⟨(s.data.drop a).take (b - a)⟩

/-- The leading-zero strip applied to the month/day/hour tokens
(source lines 131–138): `if tok[0] == "0": tok = tok[1]`.  Indexing an
empty (or, for the second index, one-character) token raises
`IndexError`. -/
def stripLeadZero (tok : String) : Except String String :=
  match tok.data with
  | [] => .error "IndexError: string index out of range"
  | c :: rest =>
    if c = '0' then
      match rest with
      | [] => .error "IndexError: string index out of range"
      | d :: _ => .ok ⟨[d]⟩
    else .ok tok

/-- The timestamp tokens emitted for one wy3 record (source lines
129–139): year = `line[8:12]` unchanged, month/day/hour = the
two-character column slices with the leading-zero strip, minute = `"0"`. -/
def wy3TimeTokens (line : String) :
    Except String (String × String × String × String × String) :=
  match stripLeadZero (pySliceStr line 12 14) with
  | .error e => .error e
  | .ok month =>
    match stripLeadZero (pySliceStr line 14 16) with
    | .error e => .error e
    | .ok day =>
      match stripLeadZero (pySliceStr line 16 18) with
      | .error e => .error e
      | .ok hour => .ok (pySliceStr line 8 12, month, day, hour, "0")

/-- The dry-bulb quality-flag mapping (source lines 142–149). -/
def tdbDs (flag : String) : Except String String :=
  if flag = " " ∨ flag = "E" then .ok "?9"
  else if flag = "T" then .ok "B9"
  else .error "Exception: tdb flag is not blank nor E"

/-- The diffuse-horizontal-radiation quality-flag mapping (source lines
206–212).  The source condition is
`(flag == "S ") or (flag == "M ") or (flag == "N ") or (flag) or (flag == "9 ")`;
the bare `(flag)` is Python truthiness — true for every non-empty
string — embedded here as `flag ≠ ""`. -/
def diffHorRadDs (flag : String) : Except String String :=
  if flag = "S " ∨ flag = "M " ∨ flag = "N " ∨ flag ≠ "" ∨ flag = "9 " then .ok "?0"
  else .error "Exception: diff_hor_rad_flag is not S nor Q nor N nor I nor 9"

/-! ## Specification-side definitions

These follow the wording of the specification (not the source) and are
used to compare the implementation against the spec's description. -/

/-- One way for a filename to "match the pattern
`((TMY|TRY|CWEC).*)` immediately before the `.epw` extension": some
split `pre ++ tag ++ mid ++ ".epw"` with `tag` one of the three catalog
tags and `.` able to span `mid` (no newline).  Follows the spec's words;
`catalogMatch` is the implementation. -/
def CatalogDecomp (s : String) (pre : List Char) (tag : String)
    (mid : List Char) : Prop :=
  tag ∈ catalogTags ∧ s.data = pre ++ tag.data ++ mid ++ ".epw".data ∧ '\n' ∉ mid

/-- The spec's description of the month/day/hour token emission: "if the
substring's first character is `0`, only its second character is emitted,
otherwise the substring is emitted unchanged". -/
def twoCharZeroStrip (t : String) : String :=
  if t.data.head? = some '0' then ⟨t.data.drop 1⟩ else t

/-! ## Concrete sample inputs for witnesses and counterexamples -/

/-- A well-formed EPW station descriptor line with exactly 10 fields. -/
def sampleHeaderLine : String :=
  "LOCATION,Stn,ON,CAN,SRC,716280,45.0,-75.0,-5.0,100.0"

/-- An EPW file whose hourly series contains only July dates (no header
metadata lines, so the default data-start index 8 applies). -/
def sampleNoJanuaryLines : List String :=
  [sampleHeaderLine, "", "", "", "", "", "", "",
   "2001,7,1,1,0,A,20.0,10.0,50.0",
   "2001,7,2,1,0,A,22.5,11.0,40.0"]

/-- An archive holding the July-only EPW file under a catalogued name. -/
def sampleNoJanuaryZip : ZipArchive :=
  ⟨[("Ottawa_CWEC2016.epw", sampleNoJanuaryLines)]⟩

/-- An archive whose single EPW member name carries no catalog tag. -/
def sampleNoCatalogZip : ZipArchive :=
  ⟨[("Ottawa_2016.epw", sampleNoJanuaryLines)]⟩

/-- An archive with members but no `.epw` member. -/
def sampleNoEpwZip : ZipArchive :=
  ⟨[("readme.txt", ["hello"]), ("data.wy3", ["x"])]⟩

/-- A daily row with given date and constant metrics. -/
def mkSampleDay (d : ℤ) (t rh : ℚ) : DayRow :=
  ⟨2001, 1, d, .finite t, .finite t, .finite t, .finite rh⟩

/-- Two daily rows tied on every metric but with different dates. -/
def dayA : DayRow := mkSampleDay 1 0 50

/-- Second of the tied daily rows. -/
def dayB : DayRow := mkSampleDay 2 0 50

/-- A 10-element daily series (distinct minima 0,1,…,9 on days 1…10). -/
def tenDays : List DayRow :=
  (List.range 10).map (fun k => mkSampleDay (k + 1) (k : ℚ) 50)

/-- The station metadata parsed from `sampleHeaderLine`. -/
def sampleMeta : EpwMeta :=
  ⟨"Stn", "ON", "CAN", .finite 45, .finite (-75), .finite 100, .finite (-5),
   "SRC", "716280", "", ""⟩

/-- The two decoded hourly records of `sampleNoJanuaryLines`. -/
def sampleRows : List HourlyRow :=
  [⟨[.num (some (.finite 2001)), .num (some (.finite 7)), .num (some (.finite 1)),
     .num (some (.finite 1)), .num (some (.finite 0)), .str "A",
     .num (some (.finite 20)), .num (some (.finite 10)), .num (some (.finite 50))], 1⟩,
   ⟨[.num (some (.finite 2001)), .num (some (.finite 7)), .num (some (.finite 2)),
     .num (some (.finite 1)), .num (some (.finite 0)), .str "A",
     .num (some (.finite (45/2))), .num (some (.finite 11)),
     .num (some (.finite 40))], 2⟩]

/-- The store after the location insert for the July-only sample archive. -/
def sampleStore1 : Store :=
  { emptyStore with locations :=
      [⟨1, sampleMeta, "Ottawa_CWEC2016.epw", "CWEC2016"⟩] }

/-! ## Theorems -/

theorem chdAux_ok (ls : List String) : ∀ i rows, chdAux i ls = .ok rows →
    rows.length = ls.length ∧
      ∀ k (hk : k < rows.length), (rows.get ⟨k, hk⟩).hour_index = i + k := by
  induction ls with
  | nil =>
    intro i rows h
    simp only [chdAux] at h
    cases h
    exact ⟨rfl, fun k hk => absurd hk (by simp)⟩
  | cons l ls ih =>
    intro i rows h
    simp only [chdAux] at h
    cases hc : decodeLineCells l with
    | error e => rw [hc] at h; simp [Except.bind] at h
    | ok cells =>
      rw [hc] at h
      cases hr : chdAux (i + 1) ls with
      | error e => rw [hr] at h; simp [Except.bind] at h
      | ok rest =>
        rw [hr] at h
        simp only [Except.bind] at h
        cases h
        obtain ⟨hlen, hidx⟩ := ih (i + 1) rest hr
        refine ⟨by simp [hlen], fun k hk => ?_⟩
        cases k with
        | zero => simp [List.get]
        | succ k =>
          have hk' : k < rest.length := by simpa using hk
          have := hidx k hk'
          simp only [List.get, List.length_cons] at *
          omega

/-- C1 (corrected): for every list of hourly lines on which the decoder does
not raise, exactly one record is produced per line, in input order, with the
k-th record's `hour_index` equal to k (1-based), independent of the lines'
content.  (The unamended claim's "regardless of the content" fails: see the
counterexample `hourly_decode_not_total_inf` — an `inf` token in an
integer-coerced column raises an uncaught `OverflowError`.) -/
theorem hourly_decode_length_and_hour_index (lines : List String)
    (rows : List HourlyRow) (h : createHourlyDataframe lines = .ok rows) :
    rows.length = lines.length ∧
      ∀ k (hk : k < rows.length), (rows.get ⟨k, hk⟩).hour_index = k + 1 := by
  obtain ⟨hl, hi⟩ := chdAux_ok lines 1 rows h
  exact ⟨hl, fun k hk => by rw [hi k hk]; omega⟩

/-- C1 witness: a concrete three-line decode. -/
theorem hourly_decode_length_and_hour_index_witness :
    ∃ rows, createHourlyDataframe ["x", "", "?"] = .ok rows ∧
      rows.length = 3 ∧
      ∀ k (hk : k < rows.length), (rows.get ⟨k, hk⟩).hour_index = k + 1 := by
  have h : createHourlyDataframe ["x", "", "?"] =
      .ok [⟨[.num none], 1⟩, ⟨[.num (some (.finite 0))], 2⟩, ⟨[.num none], 3⟩] := by
    rfl
  exact ⟨_, h, (hourly_decode_length_and_hour_index _ _ h).1,
    (hourly_decode_length_and_hour_index _ _ h).2⟩

/-- C1 counterexample: the hourly decoder is not total — a line whose first
(integer-coerced) field is the token `inf` makes `float` succeed and
`int(value)` raise an uncaught `OverflowError`, so no records are produced
for the input at all. -/
theorem hourly_decode_not_total_inf :
    createHourlyDataframe ["inf"] =
      .error "OverflowError: cannot convert float infinity to integer" := by
  rfl

theorem decodeCell_unparseable (j : ℕ) (part : String) (hj5 : j ≠ 5)
    (hsent : pyStripS part ∉ epwSentinels) (hne : pyStripS part ≠ "")
    (hbad : pyFloatOfString part = none) : decodeCell j part = .ok (.num none) := by
  unfold decodeCell
  rw [if_pos hj5, if_neg hsent, if_pos hne, hbad]

theorem decodeCellsAux_length (ps : List String) : ∀ j cells,
    decodeCellsAux j ps = .ok cells → cells.length = min ps.length (35 - j) := by
  induction ps with
  | nil =>
    intro j cells h
    simp only [decodeCellsAux] at h
    cases h
    simp
  | cons p ps ih =>
    intro j cells h
    simp only [decodeCellsAux] at h
    by_cases hj : j < 35
    · rw [if_pos hj] at h
      cases hc : decodeCell j p with
      | error e => rw [hc] at h; simp at h
      | ok c =>
        rw [hc] at h
        cases hr : decodeCellsAux (j + 1) ps with
        | error e => rw [hr] at h; simp at h
        | ok cs =>
          rw [hr] at h
          cases h
          have := ih (j + 1) cs hr
          simp only [List.length_cons, this]
          omega
    · rw [if_neg hj] at h
      cases h
      simp only [List.length_nil]
      omega

theorem decodeCell_no_error (j : ℕ) (p : String)
    (h : (j < 5 ∨ j ∈ intCols) →
      pyFloatOfString p ≠ some .inf ∧ pyFloatOfString p ≠ some .negInf) :
    ∃ c, decodeCell j p = .ok c := by
  unfold decodeCell
  by_cases h5 : j ≠ 5
  · rw [if_pos h5]
    by_cases hs : pyStripS p ∈ epwSentinels
    · exact ⟨_, by rw [if_pos hs]⟩
    · rw [if_neg hs]
      by_cases hne : pyStripS p ≠ ""
      · rw [if_pos hne]
        cases hv : pyFloatOfString p with
        | none => exact ⟨_, rfl⟩
        | some v =>
          simp only []
          by_cases hic : j < 5 ∨ j ∈ intCols
          · rw [if_pos hic]
            cases v with
            | finite q => exact ⟨_, rfl⟩
            | nan => exact ⟨_, rfl⟩
            | inf => exact absurd hv (h hic).1
            | negInf => exact absurd hv (h hic).2
          · rw [if_neg hic]
            exact ⟨_, rfl⟩
      · rw [if_neg hne]
        simp only []
        by_cases hic : j < 5 ∨ j ∈ intCols
        · rw [if_pos hic]; exact ⟨_, rfl⟩
        · rw [if_neg hic]; exact ⟨_, rfl⟩
  · rw [if_neg h5]
    exact ⟨_, rfl⟩

theorem decodeCellsAux_ok (ps : List String) : ∀ j,
    (∀ k part, ps.get? k = some part → (j + k < 5 ∨ (j + k) ∈ intCols) →
      pyFloatOfString part ≠ some .inf ∧ pyFloatOfString part ≠ some .negInf) →
    ∃ cells, decodeCellsAux j ps = .ok cells := by
  induction ps with
  | nil => exact fun j _ => ⟨[], rfl⟩
  | cons p ps ih =>
    intro j h
    by_cases hj : j < 35
    · obtain ⟨c, hc⟩ := decodeCell_no_error j p (by
        have := h 0 p rfl
        simpa using this)
      obtain ⟨cs, hcs⟩ := ih (j + 1) (fun k part hk hcol => by
        have heq : j + 1 + k = j + (k + 1) := by omega
        exact h (k + 1) part (by simpa using hk) (by rwa [heq] at hcol))
      exact ⟨c :: cs, by simp only [decodeCellsAux]; rw [if_pos hj, hc, hcs]⟩
    · exact ⟨[], by simp only [decodeCellsAux]; rw [if_neg hj]⟩

/-- C9 (corrected): the hourly cell decoder is lenient — a token that is
neither a recognised sentinel nor parseable as a float decodes to the
missing marker without raising; fields at index ≥ 35 are dropped (a
successful decode has `min(#fields, 35)` cells); and a line decodes to
exactly one record whenever no field's token parses to a float infinity in
an integer-coerced column.  (The unamended claim's unconditional totality
fails: see `hourly_line_decode_raises_on_infinity`.) -/
theorem hourly_line_decode_lenient :
    (∀ j part, j < 35 → j ≠ 5 → pyStripS part ∉ epwSentinels →
      pyStripS part ≠ "" → pyFloatOfString part = none →
      decodeCell j part = .ok (.num none)) ∧
    (∀ line cells, decodeLineCells line = .ok cells →
      cells.length = min (pySplit (pyStripS line) ',').length 35) ∧
    (∀ line,
      (∀ k part, (pySplit (pyStripS line) ',').get? k = some part →
        (k < 5 ∨ k ∈ intCols) →
        pyFloatOfString part ≠ some .inf ∧ pyFloatOfString part ≠ some .negInf) →
      ∃ cells, decodeLineCells line = .ok cells) := by
  refine ⟨fun j part _ h5 hs hne hbad => decodeCell_unparseable j part h5 hs hne hbad,
    fun line cells h => ?_, fun line h => ?_⟩
  · have := decodeCellsAux_length _ 0 cells h
    simpa using this
  · exact decodeCellsAux_ok _ 0 (fun k part hk hcol => h k part hk (by simpa using hcol))

/-- C9 witness: an unparseable token decodes to the missing marker, and a
line of ordinary tokens decodes without raising. -/
theorem hourly_line_decode_lenient_witness :
    decodeCell 6 "zz" = .ok (.num none) ∧
    (∃ cells, decodeLineCells "?" = .ok cells) := by
  constructor
  · exact hourly_line_decode_lenient.1 6 "zz" (by decide) (by decide) (by decide)
      (by decide) (by rfl)
  · refine hourly_line_decode_lenient.2.2 "?" ?_
    have hv : pySplit (pyStripS "?") ',' = ["?"] := rfl
    rw [hv]
    intro k part hk _
    cases k with
    | zero =>
      cases hk
      exact ⟨by decide, by decide⟩
    | succ k => simp at hk

/-- C9 counterexample: a one-token line whose token parses as a float
infinity makes the decoder raise, so that line yields no record. -/
theorem hourly_line_decode_raises_on_infinity :
    decodeLineCells "Infinity" =
      .error "OverflowError: cannot convert float infinity to integer" := by
  rfl

/-- C5 (confirmed): in every numeric hourly column (index < 35, excluding
the DataFlags column 5), a trimmed token equal to one of the textual
sentinels decodes to the explicit missing marker, and a trimmed-empty token
decodes to the number 0, not the missing marker. -/
theorem sentinel_and_empty_decode (j : ℕ) (part : String) (_hj : j < 35)
    (h5 : j ≠ 5) :
    (pyStripS part ∈ epwSentinels → decodeCell j part = .ok (.num none)) ∧
    (pyStripS part = "" → decodeCell j part = .ok (.num (some (.finite 0)))) := by
  constructor
  · intro hs
    unfold decodeCell
    rw [if_pos h5, if_pos hs]
  · intro he
    unfold decodeCell
    have hns : pyStripS part ∉ epwSentinels := by rw [he]; decide
    rw [if_pos h5, if_neg hns, if_neg (by simp [he])]
    simp only []
    by_cases hic : j < 5 ∨ j ∈ intCols
    · rw [if_pos hic]
      norm_num [ratTrunc]
    · rw [if_neg hic]

/-- C5 witness: a starred sentinel and a blank token in concrete columns. -/
theorem sentinel_and_empty_decode_witness :
    decodeCell 6 "*" = .ok (.num none) ∧
    decodeCell 0 " " = .ok (.num (some (.finite 0))) :=
  ⟨(sentinel_and_empty_decode 6 "*" (by decide) (by decide)).1 (by decide),
   (sentinel_and_empty_decode 0 " " (by decide) (by decide)).2 rfl⟩

theorem diffHorRadDs_ok_of_nonempty (flag : String) (h : flag ≠ "") :
    diffHorRadDs flag = .ok "?0" := by
  unfold diffHorRadDs
  rw [if_pos (Or.inr (Or.inr (Or.inr (Or.inl h))))]

/-- C4 (code_bug): the diffuse-horizontal-radiation flag check
(source line 207) contains a bare `(diff_hor_rad_flag)` truthiness test in
its `or`-chain, so every non-empty flag — including the unrecognised
`"X "` — is accepted and mapped to `"?0"` instead of raising; the raise
branch (whose own message says unrecognised flags must stop the run) is
unreachable for non-empty flags.  By contrast the dry-bulb check raises on
an unrecognised flag as the claim describes. -/
theorem diff_hor_rad_flag_truthiness_accepts_any :
    diffHorRadDs "X " = .ok "?0" ∧
    diffHorRadDs "Q " = .ok "?0" ∧
    tdbDs " " = .ok "?9" ∧ tdbDs "T" = .ok "B9" ∧
    tdbDs "X" = .error "Exception: tdb flag is not blank nor E" := by
  exact ⟨rfl, rfl, rfl, rfl, rfl⟩

theorem stripLeadZero_two (t : String) (h : t.data.length = 2) :
    stripLeadZero t = .ok (twoCharZeroStrip t) := by
  obtain ⟨l⟩ := t
  have h' : l.length = 2 := h
  obtain ⟨c, d, hcd⟩ : ∃ c d, l = [c, d] := by
    cases l with
    | nil => simp at h'
    | cons c rest =>
      cases rest with
      | nil => simp at h'
      | cons d rest2 =>
        have hr : rest2 = [] := by simpa using h'
        exact ⟨c, d, by rw [hr]⟩
  subst hcd
  by_cases hc : c = '0' <;> simp [stripLeadZero, twoCharZeroStrip, hc]

theorem pySliceStr_data (s : String) (a b : ℕ) :
    (pySliceStr s a b).data = (s.data.drop a).take (b - a) := rfl

theorem pySliceStr_length_two (s : String) (a : ℕ) (h : a + 2 ≤ s.data.length) :
    (pySliceStr s a (a + 2)).data.length = 2 := by
  rw [pySliceStr_data, List.length_take, List.length_drop]
  omega

/-- C10 (confirmed): the month, day, and hour tokens emitted for a wy3
record are the two-character fixed-column substrings (`line[12:14]`,
`line[14:16]`, `line[16:18]`) with at most one leading `0` removed — if
the substring's first character is `0` only its second character is
emitted, otherwise it is unchanged; the year token `line[8:12]` is always
emitted unchanged, and the minute token is always `"0"`. -/
theorem wy3_time_tokens_spec (line : String) (hl : 18 ≤ line.data.length) :
    wy3TimeTokens line = .ok
      (pySliceStr line 8 12,
       twoCharZeroStrip (pySliceStr line 12 14),
       twoCharZeroStrip (pySliceStr line 14 16),
       twoCharZeroStrip (pySliceStr line 16 18),
       "0") := by
  have h1 : stripLeadZero (pySliceStr line 12 14) =
      .ok (twoCharZeroStrip (pySliceStr line 12 14)) :=
    stripLeadZero_two _ (pySliceStr_length_two line 12 (by omega))
  have h2 : stripLeadZero (pySliceStr line 14 16) =
      .ok (twoCharZeroStrip (pySliceStr line 14 16)) :=
    stripLeadZero_two _ (pySliceStr_length_two line 14 (by omega))
  have h3 : stripLeadZero (pySliceStr line 16 18) =
      .ok (twoCharZeroStrip (pySliceStr line 16 18)) :=
    stripLeadZero_two _ (pySliceStr_length_two line 16 (by omega))
  unfold wy3TimeTokens
  rw [h1, h2, h3]

/-- C10 witness: a concrete 18-character record prefix with zero-padded
month and hour and an unpadded day. -/
theorem wy3_time_tokens_spec_witness :
    wy3TimeTokens "AAAAAAAA2001071509" = .ok ("2001", "7", "15", "9", "0") := by
  have h := wy3_time_tokens_spec "AAAAAAAA2001071509" (by decide)
  rw [h]
  rfl

theorem dataStartAux_no_marker (ls : List String) : ∀ k,
    (∀ l ∈ ls, isDataPeriodsLine l = false) → dataStartAux ls k = 8 := by
  induction ls with
  | nil => intro k _; rfl
  | cons l ls ih =>
    intro k h
    simp only [dataStartAux]
    rw [h l (by simp)]
    simp only [Bool.false_eq_true, if_false]
    exact ih (k + 1) (fun x hx => h x (by simp [hx]))

theorem dataStartAux_first_marker (ls : List String) : ∀ k i (hi : i < ls.length),
    isDataPeriodsLine (ls.get ⟨i, hi⟩) = true →
    (∀ j (hj : j < i), isDataPeriodsLine (ls.get ⟨j, Nat.lt_trans hj hi⟩) = false) →
    dataStartAux ls k = k + i + 1 := by
  induction ls with
  | nil => intro k i hi; simp at hi
  | cons l ls ih =>
    intro k i hi hmark hbefore
    cases i with
    | zero =>
      simp only [List.get] at hmark
      simp only [dataStartAux, hmark, if_true]
    | succ i =>
      have h0 : isDataPeriodsLine l = false := hbefore 0 (Nat.succ_pos i)
      simp only [dataStartAux, h0, Bool.false_eq_true, if_false]
      have hi' : i < ls.length := Nat.lt_of_succ_lt_succ hi
      have := ih (k + 1) i hi' (by simpa using hmark)
        (fun j hj => by
          have := hbefore (j + 1) (Nat.succ_lt_succ hj)
          simpa using this)
      rw [this]
      omega

theorem parseEpwHeader_idx (lines : List String) (m : EpwMeta) (idx : ℕ)
    (h : parseEpwHeader lines = .ok (m, idx)) : idx = dataStartAux lines 0 := by
  unfold parseEpwHeader at h
  cases hm : parseEpwMeta lines with
  | error e => rw [hm] at h; simp [Except.map] at h
  | ok mm =>
    rw [hm] at h
    simp only [Except.map] at h
    cases h
    rfl

/-- C8 (confirmed): whenever `parse_epw_header` returns, the
first-hourly-data index it reports is `i + 1` for `i` the index of the
first line whose stripped text begins with `"DATA PERIODS,"`, and the fixed
default 8 when no line does. -/
theorem data_start_index_spec (lines : List String) (m : EpwMeta) (idx : ℕ)
    (h : parseEpwHeader lines = .ok (m, idx)) :
    ((∀ l ∈ lines, isDataPeriodsLine l = false) → idx = 8) ∧
    (∀ i (hi : i < lines.length), isDataPeriodsLine (lines.get ⟨i, hi⟩) = true →
      (∀ j (hj : j < i), isDataPeriodsLine (lines.get ⟨j, Nat.lt_trans hj hi⟩) = false) →
      idx = i + 1) := by
  have hidx := parseEpwHeader_idx lines m idx h
  constructor
  · intro hnone
    rw [hidx]
    exact dataStartAux_no_marker lines 0 hnone
  · intro i hi hmark hbefore
    rw [hidx]
    have := dataStartAux_first_marker lines 0 i hi hmark hbefore
    omega

/-- C8 witness: the marker on line index 1 yields data-start index 2, and a
file without the marker yields the default 8. -/
theorem data_start_index_spec_witness :
    ∃ m m' idx idx',
      parseEpwHeader ["A,B,C,D,E,F,1.0,2.0,3.0,4.0",
        "DATA PERIODS,1,1,Data,Sunday, 1/ 1,12/31"] = .ok (m, idx) ∧ idx = 2 ∧
      parseEpwHeader ["A,B,C,D,E,F,1.0,2.0,3.0,4.0"] = .ok (m', idx') ∧ idx' = 8 := by
  have h1 : parseEpwHeader ["A,B,C,D,E,F,1.0,2.0,3.0,4.0",
      "DATA PERIODS,1,1,Data,Sunday, 1/ 1,12/31"] =
      .ok ({ station_name := "B", state_province := "C", country := "D",
             latitude := .finite 1, longitude := .finite 2,
             elevation := .finite 4, timezone := .finite 3,
             source_type := "E", wmo_station_id := "F",
             comment_1 := "", comment_2 := "" }, 2) := by decide
  have h2 : parseEpwHeader ["A,B,C,D,E,F,1.0,2.0,3.0,4.0"] =
      .ok ({ station_name := "B", state_province := "C", country := "D",
             latitude := .finite 1, longitude := .finite 2,
             elevation := .finite 4, timezone := .finite 3,
             source_type := "E", wmo_station_id := "F",
             comment_1 := "", comment_2 := "" }, 8) := by decide
  refine ⟨_, _, _, _, h1, ?_, h2, ?_⟩
  · refine (data_start_index_spec _ _ _ h1).2 1 (by decide) (by decide) ?_
    intro j hj
    interval_cases j
    show isDataPeriodsLine "A,B,C,D,E,F,1.0,2.0,3.0,4.0" = false
    decide
  · exact (data_start_index_spec _ _ _ h2).1 (by decide)

theorem extractEpwFromZip_none (z : ZipArchive)
    (h : ∀ p ∈ z.members, strEndsWith (strToLower p.1) ".epw" = false) :
    extractEpwFromZip z = none := by
  unfold extractEpwFromZip
  rw [List.find?_eq_none]
  intro p hp
  rw [h p hp]
  exact Bool.false_ne_true

/-- C7 (confirmed): an archive with no member whose lower-cased name ends
in `.epw` makes `process_single_zip` report failure and leave the store
untouched (no location row, no other rows), and the batch loop still
processes the remaining archives against the unchanged store. -/
theorem no_epw_member_reports_failure (z : ZipArchive) (st : Store)
    (zs : List ZipArchive)
    (h : ∀ p ∈ z.members, strEndsWith (strToLower p.1) ".epw" = false) :
    extractEpwFromZip z = none ∧
    processSingleZip z st = (false, st) ∧
    processZips (z :: zs) st =
      (false :: (processZips zs st).1, (processZips zs st).2) := by
  have he := extractEpwFromZip_none z h
  have hp : processSingleZip z st = (false, st) := by
    unfold processSingleZip
    rw [he]
  exact ⟨he, hp, by simp only [processZips, hp]⟩

/-- C7 witness: a concrete archive holding only non-EPW members. -/
theorem no_epw_member_reports_failure_witness :
    processSingleZip sampleNoEpwZip emptyStore = (false, emptyStore) ∧
    processZips [sampleNoEpwZip] emptyStore = ([false], emptyStore) := by
  have h := no_epw_member_reports_failure sampleNoEpwZip emptyStore []
    (by intro p hp; fin_cases hp <;> rfl)
  exact ⟨h.2.1, by rw [h.2.2]; rfl⟩

theorem goodSuffix_iff (l : List Char) :
    goodSuffix l = true ↔
      ∃ (tag : String) (mid : List Char),
        tag ∈ catalogTags ∧ l = tag.data ++ mid ∧ '\n' ∉ mid := by
  unfold goodSuffix
  rw [Bool.and_eq_true, decide_eq_true_eq]
  constructor
  · rintro ⟨hsome, hnl⟩
    unfold tagAt at hsome
    by_cases h1 : l.take 3 = "TMY".data
    · refine ⟨"TMY", l.drop 3, by decide, ?_, ?_⟩
      · conv_lhs => rw [← List.take_append_drop 3 l]
        rw [h1]
      · exact fun hmem => hnl (List.mem_of_mem_drop hmem)
    · by_cases h2 : l.take 3 = "TRY".data
      · refine ⟨"TRY", l.drop 3, by decide, ?_, ?_⟩
        · conv_lhs => rw [← List.take_append_drop 3 l]
          rw [h2]
        · exact fun hmem => hnl (List.mem_of_mem_drop hmem)
      · by_cases h3 : l.take 4 = "CWEC".data
        · refine ⟨"CWEC", l.drop 4, by decide, ?_, ?_⟩
          · conv_lhs => rw [← List.take_append_drop 4 l]
            rw [h3]
          · exact fun hmem => hnl (List.mem_of_mem_drop hmem)
        · rw [if_neg h1, if_neg h2, if_neg h3] at hsome
          simp at hsome
  · rintro ⟨tag, mid, htag, rfl, hmid⟩
    have hnl : '\n' ∉ tag.data ++ mid := by
      intro hmem
      rcases List.mem_append.mp hmem with hin | hin
      · fin_cases htag <;> simp_all
      · exact hmid hin
    refine ⟨?_, hnl⟩
    fin_cases htag
    · have ht : ("TMY".data ++ mid).take 3 = "TMY".data := by
        rw [List.take_append_of_le_length (by decide)]; decide
      unfold tagAt
      rw [ht]
      simp
    · have ht : ("TRY".data ++ mid).take 3 = "TRY".data := by
        rw [List.take_append_of_le_length (by decide)]; decide
      unfold tagAt
      rw [ht]
      simp
    · have ht3 : ("CWEC".data ++ mid).take 3 = "CWE".data := by
        rw [List.take_append_of_le_length (by decide)]; decide
      have ht4 : ("CWEC".data ++ mid).take 4 = "CWEC".data := by
        rw [List.take_append_of_le_length (by decide)]; decide
      unfold tagAt
      rw [ht3, ht4]
      simp

theorem findCatalog_some (b : List Char) : ∀ g, findCatalog b = some g →
    ∃ pre, b = pre ++ g ∧ goodSuffix g = true ∧
      ∀ pre' g', b = pre' ++ g' → goodSuffix g' = true →
        pre.length ≤ pre'.length := by
  induction b with
  | nil => intro g h; simp [findCatalog] at h
  | cons c cs ih =>
    intro g h
    simp only [findCatalog] at h
    by_cases hg : goodSuffix (c :: cs) = true
    · rw [if_pos hg] at h
      cases h
      exact ⟨[], rfl, hg, fun pre' g' _ _ => Nat.zero_le _⟩
    · rw [if_neg hg] at h
      obtain ⟨pre, hsplit, hgood, hmin⟩ := ih g h
      refine ⟨c :: pre, by rw [List.cons_append, hsplit], hgood, ?_⟩
      intro pre' g' hsplit' hgood'
      cases pre' with
      | nil =>
        simp only [List.nil_append] at hsplit'
        rw [← hsplit'] at hgood'
        exact absurd hgood' hg
      | cons c' pre2 =>
        simp only [List.cons_append, List.cons.injEq] at hsplit'
        have := hmin pre2 g' hsplit'.2 hgood'
        simp only [List.length_cons]
        omega

theorem findCatalog_none (b : List Char) : ∀ (_ : findCatalog b = none)
    (pre g : List Char), b = pre ++ g → goodSuffix g = false := by
  induction b with
  | nil =>
    intro _ pre g hsplit
    have hg : g = [] := (List.append_eq_nil.mp hsplit.symm).2
    subst hg
    decide
  | cons c cs ih =>
    intro h pre g hsplit
    simp only [findCatalog] at h
    by_cases hg : goodSuffix (c :: cs) = true
    · rw [if_pos hg] at h; simp at h
    · rw [if_neg hg] at h
      cases pre with
      | nil =>
        simp only [List.nil_append] at hsplit
        rw [← hsplit]
        exact Bool.eq_false_iff.mpr hg
      | cons c' pre2 =>
        simp only [List.cons_append, List.cons.injEq] at hsplit
        exact ih h pre2 g hsplit.2

theorem catalogMatch_some_decomp (s c : String) (h : catalogMatch s = some c) :
    ∃ pre tag mid, CatalogDecomp s pre tag mid ∧ c.data = tag.data ++ mid ∧
      ∀ pre' tag' mid', CatalogDecomp s pre' tag' mid' →
        pre.length ≤ pre'.length := by
  unfold catalogMatch at h
  by_cases hguard : 4 ≤ s.data.length ∧ s.data.drop (s.data.length - 4) = ".epw".data
  · rw [if_pos hguard] at h
    cases hf : findCatalog (s.data.take (s.data.length - 4)) with
    | none => rw [hf] at h; simp [Option.map] at h
    | some g =>
      rw [hf] at h
      simp only [Option.map] at h
      obtain ⟨pre, hsplit, hgood, hmin⟩ := findCatalog_some _ g hf
      obtain ⟨tag, mid, htag, hgm, hmid⟩ := (goodSuffix_iff g).mp hgood
      have hbody : s.data = s.data.take (s.data.length - 4) ++ ".epw".data := by
        conv_lhs => rw [← List.take_append_drop (s.data.length - 4) s.data]
        rw [hguard.2]
      refine ⟨pre, tag, mid, ⟨htag, ?_, hmid⟩, ?_, ?_⟩
      · rw [hbody, hsplit, hgm]
        simp [List.append_assoc]
      · cases h
        exact hgm
      · rintro pre' tag' mid' ⟨_, hsplit', hmid'⟩
        have hb' : s.data.take (s.data.length - 4) = pre' ++ (tag'.data ++ mid') := by
          have heq : s.data.take (s.data.length - 4) ++ ".epw".data =
              (pre' ++ (tag'.data ++ mid')) ++ ".epw".data := by
            rw [← hbody, hsplit']
            simp [List.append_assoc]
          exact List.append_cancel_right heq
        exact hmin pre' (tag'.data ++ mid') hb'
          ((goodSuffix_iff _).mpr ⟨tag', mid', ‹tag' ∈ catalogTags›, rfl, hmid'⟩)
  · rw [if_neg hguard] at h
    simp at h

theorem catalogMatch_none_decomp (s : String) (h : catalogMatch s = none) :
    ∀ pre tag mid, ¬ CatalogDecomp s pre tag mid := by
  rintro pre tag mid ⟨htag, hsplit, hmid⟩
  have hX : s.data = (pre ++ (tag.data ++ mid)) ++ ".epw".data := by
    rw [hsplit]; simp [List.append_assoc]
  have hlen : s.data.length = (pre ++ (tag.data ++ mid)).length + 4 := by
    rw [hX]; simp; omega
  unfold catalogMatch at h
  by_cases hguard : 4 ≤ s.data.length ∧ s.data.drop (s.data.length - 4) = ".epw".data
  · rw [if_pos hguard] at h
    cases hf : findCatalog (s.data.take (s.data.length - 4)) with
    | some g => rw [hf] at h; simp [Option.map] at h
    | none =>
      have hbody : s.data.take (s.data.length - 4) = pre ++ (tag.data ++ mid) := by
        have h4 : s.data.length - 4 = (pre ++ (tag.data ++ mid)).length := by omega
        rw [h4]
        conv_lhs => rw [hX]
        exact List.take_left _ _
      have hgood := (goodSuffix_iff (tag.data ++ mid)).mpr ⟨tag, mid, htag, rfl, hmid⟩
      have hfalse := findCatalog_none _ hf pre (tag.data ++ mid) hbody
      rw [hgood] at hfalse
      exact absurd hfalse (by decide)
  · refine hguard ⟨by omega, ?_⟩
    have h4 : s.data.length - 4 = (pre ++ (tag.data ++ mid)).length := by omega
    rw [h4]
    conv_lhs => rw [hX]
    exact List.drop_left _ _

/-- C6 (confirmed): if the EPW filename matches
`((TMY|TRY|CWEC).*)` immediately before the `.epw` extension, the inserted
location row's catalog field is the (leftmost) matched substring; if no
such match exists, `insert_location` raises before inserting any row —
never a soft default — and the orchestrator reports failure for that
archive with the store unchanged while the batch continues with the
remaining archives. -/
theorem catalog_extraction_spec :
    (∀ s c, catalogMatch s = some c →
      ∃ pre tag mid, CatalogDecomp s pre tag mid ∧ c.data = tag.data ++ mid ∧
        ∀ pre' tag' mid', CatalogDecomp s pre' tag' mid' →
          pre.length ≤ pre'.length) ∧
    (∀ s, catalogMatch s = none → ∀ pre tag mid, ¬ CatalogDecomp s pre tag mid) ∧
    (∀ st m fname c, catalogMatch fname = some c →
      insertLocation st m fname =
        .ok ({ st with locations := st.locations ++
                [⟨st.locations.length + 1, m, fname, c⟩] },
             st.locations.length + 1)) ∧
    (∀ st m fname, catalogMatch fname = none →
      ∃ e, insertLocation st m fname = .error e) ∧
    (∀ z st zs fname lines meta idx, extractEpwFromZip z = some (fname, lines) →
      parseEpwHeader lines = .ok (meta, idx) → catalogMatch fname = none →
      processSingleZip z st = (false, st) ∧
      processZips (z :: zs) st =
        (false :: (processZips zs st).1, (processZips zs st).2)) := by
  refine ⟨catalogMatch_some_decomp, catalogMatch_none_decomp, ?_, ?_, ?_⟩
  · intro st m fname c hsome
    unfold insertLocation
    rw [hsome]
  · intro st m fname hnone
    unfold insertLocation
    rw [hnone]
    exact ⟨_, rfl⟩
  · intro z st zs fname lines meta idx hex hhdr hnone
    have hfail : processSingleZip z st = (false, st) := by
      unfold processSingleZip
      rw [hex]
      simp only []
      have hpe : processEpw fname lines st =
          .error (st, "ValueError: Catalog not found in filename: " ++ fname) := by
        unfold processEpw
        rw [hhdr]
        simp only []
        unfold insertLocation
        rw [hnone]
      rw [hpe]
    exact ⟨hfail, by simp only [processZips, hfail]⟩

/-- C6 witness: a catalogued filename decomposes as the spec describes; an
uncatalogued one admits no decomposition and leaves the store unchanged. -/
theorem catalog_extraction_spec_witness :
    (∃ pre tag mid, CatalogDecomp "Ottawa_CWEC2016.epw" pre tag mid ∧
      ("CWEC2016" : String).data = tag.data ++ mid) ∧
    (∀ pre tag mid, ¬ CatalogDecomp "foo.epw" pre tag mid) ∧
    insertLocation emptyStore sampleMeta "Ottawa_CWEC2016.epw" =
      .ok ({ emptyStore with locations :=
              [⟨1, sampleMeta, "Ottawa_CWEC2016.epw", "CWEC2016"⟩] }, 1) ∧
    processSingleZip sampleNoCatalogZip emptyStore = (false, emptyStore) := by
  refine ⟨?_, ?_, ?_, ?_⟩
  · obtain ⟨pre, tag, mid, hd, hc, _⟩ :=
      catalog_extraction_spec.1 "Ottawa_CWEC2016.epw" "CWEC2016" (by decide)
    exact ⟨pre, tag, mid, hd, hc⟩
  · exact catalog_extraction_spec.2.1 "foo.epw" (by decide)
  · exact catalog_extraction_spec.2.2.1 emptyStore sampleMeta
      "Ottawa_CWEC2016.epw" "CWEC2016" (by decide)
  · exact (catalog_extraction_spec.2.2.2.2 sampleNoCatalogZip emptyStore []
      "Ottawa_2016.epw" sampleNoJanuaryLines sampleMeta 8 (by decide)
      (by decide) (by decide)).1

theorem sortValues_perm (daily : List DayRow) (key : DayRow → PyFloat)
    (asc : Bool) : (sortValues daily key asc).Perm daily :=
  List.perm_insertionSort _ _

theorem sortValues_sorted (daily : List DayRow) (key : DayRow → PyFloat)
    (asc : Bool) : List.Sorted (dayRel key asc) (sortValues daily key asc) :=
  List.sorted_insertionSort _ _

theorem sortValues_map_sorted (daily : List DayRow) (key : DayRow → PyFloat)
    (asc : Bool) :
    List.Sorted (pfKeyRel asc) ((sortValues daily key asc).map key) := by
  have h := sortValues_sorted daily key asc
  unfold List.Sorted at *
  rw [List.pairwise_map]
  exact h

theorem pandasIloc_ok (l : List DayRow) (idx : ℤ) (r : DayRow)
    (h : pandasIloc l idx = .ok r) :
    ∃ (j : ℕ) (hj : j < l.length), r = l.get ⟨j, hj⟩ ∧
      (j : ℤ) = (if 0 ≤ idx then idx else idx + l.length) := by
  unfold pandasIloc at h
  simp only [] at h
  by_cases hc : 0 ≤ (if 0 ≤ idx then idx else idx + (l.length : ℤ)) ∧
      (if 0 ≤ idx then idx else idx + (l.length : ℤ)).toNat < l.length
  · rw [dif_pos hc] at h
    cases h
    exact ⟨_, hc.2, rfl, Int.toNat_of_nonneg hc.1⟩
  · rw [dif_neg hc] at h
    simp at h

theorem percentileDay_ok (daily : List DayRow) (key : DayRow → PyFloat)
    (pct : ℚ) (asc : Bool) (r : DayRow)
    (h : percentileDay daily key pct asc = .ok r) :
    ∃ (j : ℕ) (hj : j < (sortValues daily key asc).length),
      r = (sortValues daily key asc).get ⟨j, hj⟩ ∧
      (j : ℤ) = (if 0 ≤ ratTrunc ((daily.length : ℚ) * (pct / 100)) then
          ratTrunc ((daily.length : ℚ) * (pct / 100))
        else ratTrunc ((daily.length : ℚ) * (pct / 100)) + daily.length) := by
  unfold percentileDay at h
  have hlen : (sortValues daily key asc).length = daily.length :=
    (sortValues_perm daily key asc).length_eq
  obtain ⟨j, hj, hr, hval⟩ := pandasIloc_ok _ _ _ h
  rw [hlen] at hval
  exact ⟨j, hj, hr, hval⟩

/-- C2 (corrected): `percentile_day` sorts the daily series by the target
metric (ascending for heating, descending for cooling) and picks the
element at index `⌊N·pct/100⌋` — truncation, not rounding; the selection is
deterministic, and the *metric value* selected is invariant under any
permutation of the input (in particular under reordering of tied
elements); for a 10-element series the 0.4th-percentile heating pick is
the element at sorted-ascending index 0.  (The unamended claim's stronger
assertion — that the selected *row* is independent of the order of tied
elements — fails: see `percentile_day_tie_order_dependent`.) -/
theorem percentile_day_nearest_rank :
    (∀ daily (key : DayRow → PyFloat) (pct : ℚ) (asc : Bool) r, 0 ≤ pct →
      percentileDay daily key pct asc = .ok r →
      ∃ hj : (⌊(daily.length : ℚ) * pct / 100⌋).toNat <
          (sortValues daily key asc).length,
        r = (sortValues daily key asc).get
          ⟨(⌊(daily.length : ℚ) * pct / 100⌋).toNat, hj⟩) ∧
    (∀ daily daily' (key : DayRow → PyFloat) (pct : ℚ) (asc : Bool) r r',
      daily.Perm daily' →
      percentileDay daily key pct asc = .ok r →
      percentileDay daily' key pct asc = .ok r' → key r = key r') ∧
    (∀ daily (key : DayRow → PyFloat) r, daily.length = 10 →
      percentileDay daily key (2/5) true = .ok r →
      ∃ h0 : 0 < (sortValues daily key true).length,
        r = (sortValues daily key true).get ⟨0, h0⟩) := by
  have hkey : ∀ daily (key : DayRow → PyFloat) (pct : ℚ) (asc : Bool) r,
      0 ≤ pct → percentileDay daily key pct asc = .ok r →
      ∃ hj : (⌊(daily.length : ℚ) * pct / 100⌋).toNat <
          (sortValues daily key asc).length,
        r = (sortValues daily key asc).get
          ⟨(⌊(daily.length : ℚ) * pct / 100⌋).toNat, hj⟩ := by
    intro daily key pct asc r hpct h
    obtain ⟨j, hj, hr, hval⟩ := percentileDay_ok daily key pct asc r h
    have hq : (0:ℚ) ≤ (daily.length : ℚ) * (pct / 100) :=
      mul_nonneg (Nat.cast_nonneg _) (by positivity)
    have htr : ratTrunc ((daily.length : ℚ) * (pct / 100)) =
        ⌊(daily.length : ℚ) * pct / 100⌋ := by
      unfold ratTrunc
      rw [if_pos hq, mul_div_assoc]
    have hq' : (0:ℚ) ≤ (daily.length : ℚ) * pct / 100 := by
      rw [mul_div_assoc]
      exact hq
    have hfl : 0 ≤ ⌊(daily.length : ℚ) * pct / 100⌋ := Int.floor_nonneg.mpr hq'
    have hpos : 0 ≤ ratTrunc ((daily.length : ℚ) * (pct / 100)) := by
      rw [htr]
      exact hfl
    have hval' : (j : ℤ) = ⌊(daily.length : ℚ) * pct / 100⌋ := by
      rw [hval, if_pos hpos, htr]
    have hjeq : j = (⌊(daily.length : ℚ) * pct / 100⌋).toNat := by omega
    subst hjeq
    exact ⟨hj, hr⟩
  refine ⟨hkey, ?_, ?_⟩
  · intro daily daily' key pct asc r r' hperm h h'
    obtain ⟨j, hj, hr, hval⟩ := percentileDay_ok daily key pct asc r h
    obtain ⟨j', hj', hr', hval'⟩ := percentileDay_ok daily' key pct asc r' h'
    have hlen : daily.length = daily'.length := hperm.length_eq
    rw [hlen] at hval
    have hjz : (j : ℤ) = (j' : ℤ) := by rw [hval, hval']
    have hjj : j = j' := by omega
    subst hjj
    have hmapeq : (sortValues daily key asc).map key =
        (sortValues daily' key asc).map key :=
      List.eq_of_perm_of_sorted
        (((sortValues_perm daily key asc).trans
          (hperm.trans (sortValues_perm daily' key asc).symm)).map key)
        (sortValues_map_sorted daily key asc)
        (sortValues_map_sorted daily' key asc)
    have h1 : key r = ((sortValues daily key asc).map key).get
        ⟨j, by simpa using hj⟩ := by
      rw [hr]; simp
    have h2 : key r' = ((sortValues daily' key asc).map key).get
        ⟨j, by simpa using hj'⟩ := by
      rw [hr']; simp
    rw [h1, h2, List.get_of_eq hmapeq]
  · intro daily key r hlen h
    obtain ⟨hj, hr⟩ := hkey daily key (2/5) true r (by norm_num) h
    have hz : (⌊(daily.length : ℚ) * (2/5) / 100⌋).toNat = 0 := by
      rw [hlen]
      have hval : ((10:ℕ) : ℚ) * (2/5) / 100 = 1/25 := by norm_num
      rw [hval]
      have hfl : ⌊(1/25 : ℚ)⌋ = 0 := by
        rw [Int.floor_eq_zero_iff]
        constructor <;> norm_num
      rw [hfl]
      rfl
    refine ⟨by omega, ?_⟩
    rw [hr]
    congr 1
    exact Fin.ext (by simp [hz])

/-- C2 witness: concrete applications — the nearest-rank pick on a
10-element series and tie-value invariance on permuted inputs. -/
theorem percentile_day_nearest_rank_witness :
    (∃ r, percentileDay tenDays DayRow.minT (2/5) true = .ok r ∧
      ∃ h0 : 0 < (sortValues tenDays DayRow.minT true).length,
        r = (sortValues tenDays DayRow.minT true).get ⟨0, h0⟩) ∧
    (∀ r r', percentileDay [dayA, dayB] DayRow.minT (2/5) true = .ok r →
      percentileDay [dayB, dayA] DayRow.minT (2/5) true = .ok r' →
      r.minT = r'.minT) := by
  constructor
  · have h : percentileDay tenDays DayRow.minT (2/5) true = .ok (mkSampleDay 1 0 50) := by
      decide
    exact ⟨_, h, percentile_day_nearest_rank.2.2 tenDays DayRow.minT _ (by decide) h⟩
  · intro r r' h h'
    exact percentile_day_nearest_rank.2.1 [dayA, dayB] [dayB, dayA]
      DayRow.minT (2/5) true r r' (List.Perm.swap dayB dayA []) h h'

/-- C2 counterexample: two daily rows tied on the metric but with
different dates; permuting them changes which row (hence which date) the
0.4th-percentile heating selection returns, so the selection is not
independent of the order of tied elements. -/
theorem percentile_day_tie_order_dependent :
    ([dayB, dayA]).Perm [dayA, dayB] ∧
    percentileDay [dayA, dayB] DayRow.minT (2/5) true = .ok dayA ∧
    percentileDay [dayB, dayA] DayRow.minT (2/5) true = .ok dayB ∧
    dayA ≠ dayB := by
  refine ⟨List.Perm.swap dayA dayB [], by decide, by decide, by decide⟩

theorem parseTypicalPeriods_inv (line : String) (st : Store) (locId : ℕ)
    (st' : Store) (h : parseTypicalPeriods line st locId = .ok st') :
    st'.locations = st.locations ∧ st'.hourly = st.hourly ∧
      st'.designDays = st.designDays := by
  unfold parseTypicalPeriods at h
  split at h
  · cases h; exact ⟨rfl, rfl, rfl⟩
  · simp only [] at h
    split at h
    · cases h; exact ⟨rfl, rfl, rfl⟩
    · split at h
      · simp at h
      · cases h; exact ⟨rfl, rfl, rfl⟩

theorem parseGroundTemps_inv (line : String) (st : Store) (locId : ℕ)
    (st' : Store) (h : parseGroundTemps line st locId = .ok st') :
    st'.locations = st.locations ∧ st'.hourly = st.hourly ∧
      st'.designDays = st.designDays := by
  unfold parseGroundTemps at h
  split at h
  · cases h; exact ⟨rfl, rfl, rfl⟩
  · simp only [] at h
    split at h
    · cases h; exact ⟨rfl, rfl, rfl⟩
    · split at h
      · simp at h
      · cases h; exact ⟨rfl, rfl, rfl⟩

theorem parseHolidaysDst_inv (line : String) (st : Store) (locId : ℕ)
    (st' : Store) (h : parseHolidaysDst line st locId = .ok st') :
    st'.locations = st.locations ∧ st'.hourly = st.hourly ∧
      st'.designDays = st.designDays := by
  unfold parseHolidaysDst at h
  split at h
  · cases h; exact ⟨rfl, rfl, rfl⟩
  · simp only [] at h
    split at h
    · cases h; exact ⟨rfl, rfl, rfl⟩
    · split at h
      · simp at h
      · split at h
        · simp at h
        · split at h
          · simp at h
          · cases h; exact ⟨rfl, rfl, rfl⟩

theorem parseDataPeriods_inv (line : String) (st : Store) (locId : ℕ)
    (st' : Store) (h : parseDataPeriods line st locId = .ok st') :
    st'.locations = st.locations ∧ st'.hourly = st.hourly ∧
      st'.designDays = st.designDays := by
  unfold parseDataPeriods at h
  split at h
  · cases h; exact ⟨rfl, rfl, rfl⟩
  · simp only [] at h
    split at h
    · cases h; exact ⟨rfl, rfl, rfl⟩
    · cases h; exact ⟨rfl, rfl, rfl⟩

theorem dispatchLine_inv (line : String) (st : Store) (locId : ℕ)
    (st' : Store) (h : dispatchLine line st locId = .ok st') :
    st'.locations = st.locations ∧ st'.hourly = st.hourly ∧
      st'.designDays = st.designDays := by
  unfold dispatchLine at h
  simp only [] at h
  split at h
  · cases h; exact ⟨rfl, rfl, rfl⟩
  · split at h
    · exact parseTypicalPeriods_inv _ _ _ _ h
    · split at h
      · exact parseGroundTemps_inv _ _ _ _ h
      · split at h
        · exact parseHolidaysDst_inv _ _ _ _ h
        · split at h
          · exact parseDataPeriods_inv _ _ _ _ h
          · cases h; exact ⟨rfl, rfl, rfl⟩

theorem metadataAux_inv (ls : List String) : ∀ (st : Store) (locId : ℕ)
    (st' : Store), metadataAux ls st locId = .ok st' →
    st'.locations = st.locations ∧ st'.hourly = st.hourly ∧
      st'.designDays = st.designDays := by
  induction ls with
  | nil =>
    intro st locId st' h
    simp only [metadataAux] at h
    cases h
    exact ⟨rfl, rfl, rfl⟩
  | cons l ls ih =>
    intro st locId st' h
    simp only [metadataAux] at h
    cases hd : dispatchLine l st locId with
    | error e => rw [hd] at h; simp at h
    | ok st1 =>
      rw [hd] at h
      obtain ⟨h1, h2, h3⟩ := dispatchLine_inv _ _ _ _ hd
      obtain ⟨g1, g2, g3⟩ := ih st1 locId st' h
      exact ⟨g1.trans h1, g2.trans h2, g3.trans h3⟩

theorem insertLocation_ok (st : Store) (m : EpwMeta) (fname : String)
    (st1 : Store) (locId : ℕ) (h : insertLocation st m fname = .ok (st1, locId)) :
    ∃ cat, catalogMatch fname = some cat ∧
      st1.locations = st.locations ++ [⟨st.locations.length + 1, m, fname, cat⟩] ∧
      st1.hourly = st.hourly ∧ st1.designDays = st.designDays := by
  unfold insertLocation at h
  cases hc : catalogMatch fname with
  | none => rw [hc] at h; simp at h
  | some cat =>
    rw [hc] at h
    simp only [] at h
    cases h
    exact ⟨cat, rfl, rfl, rfl, rfl⟩

/-- C3 (corrected): the per-archive writes are committed stage by stage and
are not rolled back — when design-day derivation fails (for example because
the hourly series has no January dates), `process_single_zip` reports
failure but the store keeps the archive's already-committed location,
metadata, and hourly rows, while gaining no design-day rows.  Writes are
therefore not all-or-nothing; only a failure before the location insert
leaves the store untouched.  (The unamended claim is refuted by
`partial_rows_after_design_day_failure`.) -/
theorem design_day_failure_keeps_committed_rows
    (z : ZipArchive) (st : Store) (fname : String) (lines : List String)
    (meta : EpwMeta) (idx : ℕ) (st1 st2 : Store) (locId : ℕ)
    (rows : List HourlyRow) (e : String)
    (hex : extractEpwFromZip z = some (fname, lines))
    (hhdr : parseEpwHeader lines = .ok (meta, idx))
    (hloc : insertLocation st meta fname = .ok (st1, locId))
    (hmeta : parseEpwMetadata lines st1 locId = .ok st2)
    (hrows : createHourlyDataframe (lines.drop idx) = .ok rows)
    (hdd : extractDesignDays rows = .error e) :
    processSingleZip z st = (false, insertHourlyData st2 locId rows) ∧
    (insertHourlyData st2 locId rows).designDays = st.designDays ∧
    ∃ cat, (insertHourlyData st2 locId rows).locations =
      st.locations ++ [⟨st.locations.length + 1, meta, fname, cat⟩] := by
  obtain ⟨cat, _, hl1, _, hd1⟩ := insertLocation_ok _ _ _ _ _ hloc
  obtain ⟨hl2, _, hd2⟩ := metadataAux_inv (lines.take 20) st1 locId st2 hmeta
  refine ⟨?_, ?_, cat, ?_⟩
  · unfold processSingleZip
    rw [hex]
    simp only []
    have hpe : processEpw fname lines st =
        .error (insertHourlyData st2 locId rows, e) := by
      unfold processEpw
      rw [hhdr]
      simp only []
      rw [hloc]
      simp only []
      rw [hmeta]
      simp only []
      rw [hrows]
      simp only []
      rw [hdd]
    rw [hpe]
  · show st2.designDays = st.designDays
    exact hd2.trans hd1
  · show st2.locations = st.locations ++ [⟨st.locations.length + 1, meta, fname, cat⟩]
    exact hl2.trans hl1

/-- C3 witness: the July-only sample archive, with every stage hypothesis
discharged concretely. -/
theorem design_day_failure_keeps_committed_rows_witness :
    processSingleZip sampleNoJanuaryZip emptyStore =
      (false, insertHourlyData sampleStore1 1 sampleRows) ∧
    (insertHourlyData sampleStore1 1 sampleRows).designDays =
      emptyStore.designDays ∧
    ∃ cat, (insertHourlyData sampleStore1 1 sampleRows).locations =
      emptyStore.locations ++ [⟨1, sampleMeta, "Ottawa_CWEC2016.epw", cat⟩] := by
  have h := design_day_failure_keeps_committed_rows sampleNoJanuaryZip emptyStore
    "Ottawa_CWEC2016.epw" sampleNoJanuaryLines sampleMeta 8 sampleStore1
    sampleStore1 1 sampleRows
    "IndexError: single positional indexer is out-of-bounds"
    (by decide) (by decide) (by decide) (by decide) (by decide) (by decide)
  exact ⟨h.1, h.2.1, h.2.2⟩

/-- C3 counterexample: processing the July-only archive fails (design-day
stage), yet the store afterwards contains its location row and both hourly
rows while holding no design-day rows — neither all of the archive's rows
nor none of them. -/
theorem partial_rows_after_design_day_failure :
    (processSingleZip sampleNoJanuaryZip emptyStore).1 = false ∧
    (processSingleZip sampleNoJanuaryZip emptyStore).2.locations.length = 1 ∧
    (processSingleZip sampleNoJanuaryZip emptyStore).2.hourly.length = 2 ∧
    (processSingleZip sampleNoJanuaryZip emptyStore).2.designDays = [] := by
  exact ⟨by decide, by decide, by decide, by decide⟩
